import Mathlib

/-!
Shallow embedding of the build-orchestration core of CppLabEngine
(`src/cpplab/core/builder.py`, `src/cpplab/core/toolchains.py`,
`src/cpplab/core/diagnostics.py`) and proofs about it.

Paths are modelled as strings (Python `Path` objects are stringly
structured here; only equality and concatenation matter to the core),
file-content digests as strings, and modification times as integers.
Filesystem access, compiler subprocesses and the parallel task
completion order are parameters of the embedded functions: a run of the
real program corresponds to one choice of these parameters.
-/

namespace CppLab

/-- Model of `pathlib.Path` as used by the core: a plain path string. -/
abbrev FsPath := String

/-! ## Diagnostics (`src/cpplab/core/diagnostics.py`) -/

/-- The `Diagnostic` dataclass from `diagnostics.py`: file, 1-based line and
column, message, and severity (`"error"`, `"warning"` or `"note"`). -/
structure Diagnostic where
  file : FsPath
  line : Nat
  column : Nat
  message : String
  severity : String
deriving Repr, DecidableEq

/-- ASCII whitespace, as recognised by Python `str.strip()` and by the
regex class `\s` on the ASCII range. -/
def isSpaceChar (c : Char) : Bool :=
  c = ' ' || c = '\t' || c = '\n' || c = '\r' || c = '\x0b' || c = '\x0c'

/-- Python `str.strip()` on a character list. -/
def stripChars (cs : List Char) : List Char :=
  ((cs.dropWhile isSpaceChar).reverse.dropWhile isSpaceChar).reverse

/-- Python `int()` on a nonempty digit string. -/
def digitsToNat (ds : List Char) : Nat :=
  ds.foldl (fun n c => 10 * n + (c.toNat - '0'.toNat)) 0

/-- Match a literal character sequence at the head of the input,
returning the remainder on success. -/
def dropLit : List Char → List Char → Option (List Char)
  | [], cs => some cs
  | _ :: _, [] => none
  | l :: ls, c :: cs => if c = l then dropLit ls cs else none

/-- The alternation `(warning|error|fatal error|note):` of `GCC_LINE_RE`,
tried in the regex's left-to-right order, each alternative followed by
the literal colon. -/
def matchKind (cs : List Char) : Option (String × List Char) :=
  match dropLit "warning:".data cs with
  | some rest => some ("warning", rest)
  | none =>
    match dropLit "error:".data cs with
    | some rest => some ("error", rest)
    | none =>
      match dropLit "fatal error:".data cs with
      | some rest => some ("fatal error", rest)
      | none =>
        match dropLit "note:".data cs with
        | some rest => some ("note", rest)
        | none => none

/-- The tail `(\d+):(\d+):\s*(warning|error|fatal error|note):\s*(.+)$`
of `GCC_LINE_RE`, applied to the input after the first group's colon.
Greedy `\d+` followed by a literal `:` succeeds exactly when the maximal
digit run is nonempty and a colon follows; greedy `\s*` before the
alternation is maximal because no alternative begins with whitespace;
the final `\s*(.+)$` leaves at least one character for `.+`, giving
back whitespace if everything after the colon is whitespace.
Returns (line, column, kind, message characters). -/
def matchTail (cs : List Char) : Option (Nat × Nat × String × List Char) :=
  let ds1 := cs.takeWhile Char.isDigit
  let r1 := cs.dropWhile Char.isDigit
  if ds1.isEmpty then none else
  match r1 with
  | ':' :: r2 =>
    let ds2 := r2.takeWhile Char.isDigit
    let r3 := r2.dropWhile Char.isDigit
    if ds2.isEmpty then none else
    match r3 with
    | ':' :: r4 =>
      match matchKind (r4.dropWhile isSpaceChar) with
      | some (kind, r5) =>
        let spaces := (r5.takeWhile isSpaceChar).length
        let msg := r5.drop (min spaces (r5.length - 1))
        if msg.isEmpty then none
        else some (digitsToNat ds1, digitsToNat ds2, kind, msg)
      | none => none
    | _ => none
  | _ => none

/-- The leading lazy group `(?P<file>.+?):` of `GCC_LINE_RE`: the file
name is the shortest nonempty prefix after which a colon and a matching
tail follow.  `fileRev` accumulates the file characters in reverse. -/
def matchFileSplit : List Char → List Char → Option (List Char × Nat × Nat × String × List Char)
  | _, [] => none
  | fileRev, c :: rest =>
    if c = '\n' then none else
    let fileRev' := c :: fileRev
    match rest with
    | ':' :: rest2 =>
      match matchTail rest2 with
      | some t => some (fileRev'.reverse, t)
      | none => matchFileSplit fileRev' rest
    | _ => matchFileSplit fileRev' rest

/-- One iteration of the loop body of `parse_gcc_output`: match a
(stripped) line against `GCC_LINE_RE` and build the `Diagnostic`,
normalising the kind to a severity (`fatal error` ↦ `error`). -/
def matchGccLine (cs : List Char) : Option Diagnostic :=
  match matchFileSplit [] cs with
  | some (file, line, col, kind, msg) =>
    let severity :=
      if kind = "error" || kind = "fatal error" then "error"
      else if kind = "warning" then "warning"
      else if kind = "note" then "note"
      else "error"
    some { file := String.mk file, line := line, column := col,
           message := String.mk (stripChars msg), severity := severity }
  | none => none

/-- Python `text.split('\n')`: split at every newline, keeping empty
pieces. -/
def splitOnNl : List Char → List (List Char)
  | [] => [[]]
  | c :: cs =>
    match splitOnNl cs with
    | [] => [[c]]
    | l :: ls => if c = '\n' then [] :: l :: ls else (c :: l) :: ls

/-- Model of `parse_gcc_output`: split on newlines, strip each line, skip blank
lines, and collect the diagnostics of the matching lines in order. -/
def parseGccOutput (text : String) : List Diagnostic :=
  if text = "" then []
  else
    (splitOnNl text.data).filterMap (fun l₀ =>
      let l := stripChars l₀
      if l.isEmpty then none else matchGccLine l)

/-! ## Toolchains (`src/cpplab/core/toolchains.py`) -/

/-- The `ToolchainConfig` dataclass: name, installation root, bitness and
OpenMP capability. -/
structure ToolchainConfig where
  name : String
  rootDir : FsPath
  is32bit : Bool
  supportsOpenmp : Bool
deriving Repr, DecidableEq

/-- Model of `ToolchainConfig.bin_dir`. -/
def ToolchainConfig.binDir (t : ToolchainConfig) : FsPath := t.rootDir ++ "/bin"

/-- Model of `ToolchainConfig.cpp_compiler`. -/
def ToolchainConfig.cppCompiler (t : ToolchainConfig) : FsPath :=
  t.binDir ++ "/g++.exe"

/-- Model of `ToolchainConfig.is_available`: both the binary directory and the
C++ compiler executable exist.  Filesystem existence is a parameter
`fs` of the model (the real method calls `Path.exists`). -/
def ToolchainConfig.isAvailable (fs : FsPath → Bool) (t : ToolchainConfig) : Bool :=
  fs t.binDir && fs t.cppCompiler

/-- The `mingw64` entry built by `get_toolchains`. -/
def mingw64Config (compilersDir : FsPath) : ToolchainConfig :=
  { name := "mingw64", rootDir := compilersDir ++ "/mingw64",
    is32bit := false, supportsOpenmp := true }

/-- The `mingw32` entry built by `get_toolchains`. -/
def mingw32Config (compilersDir : FsPath) : ToolchainConfig :=
  { name := "mingw32", rootDir := compilersDir ++ "/mingw32",
    is32bit := true, supportsOpenmp := false }

/-- Model of `get_toolchains`, as a lookup function on the two-entry dict it
returns. -/
def getToolchains (compilersDir : FsPath) : String → Option ToolchainConfig :=
  fun n =>
    if n = "mingw64" then some (mingw64Config compilersDir)
    else if n = "mingw32" then some (mingw32Config compilersDir)
    else none

/-- The `ProjectConfig` dataclass (`project_config.py`).  The `features`
dict is modelled by the two flags the core reads
(`features.get("graphics", False)` and `features.get("openmp", False)`). -/
structure ProjectConfig where
  name : String
  rootPath : FsPath
  language : String
  standard : String
  projectType : String
  featuresGraphics : Bool
  featuresOpenmp : Bool
  files : List FsPath
  mainFile : FsPath
  toolchainPreference : String
deriving Repr, DecidableEq

/-- Exceptions `select_toolchain` can raise. -/
inductive SelectError where
  /-- a toolchain lookup produced nothing (Python `KeyError` on
  `toolchains["mingw32"]`, or `AttributeError` when both fallback
  lookups return `None`) -/
  | lookupFailed
  /-- `FileNotFoundError`: the resolved toolchain is not available -/
  | notFound
deriving Repr, DecidableEq

/-- The `uses_graphics` condition of `select_toolchain`. -/
def usesGraphics (config : ProjectConfig) : Bool :=
  (config.projectType == "graphics") || config.featuresGraphics

/-- The resolution rules of `select_toolchain` (lines 79–97), before the
availability check: graphics forces `mingw32`; otherwise an explicit
present preference wins; otherwise `mingw64` falls back to `mingw32`. -/
def resolveToolchain (config : ProjectConfig)
    (tcs : String → Option ToolchainConfig) : Except SelectError ToolchainConfig :=
  if usesGraphics config then
    match tcs "mingw32" with
    | some t => .ok t
    | none => .error .lookupFailed
  else
    match (if config.toolchainPreference = "mingw64" then tcs "mingw64" else none) with
    | some t => .ok t
    | none =>
      match (if config.toolchainPreference = "mingw32" then tcs "mingw32" else none) with
      | some t => .ok t
      | none =>
        match tcs "mingw64" with
        | some t => .ok t
        | none =>
          match tcs "mingw32" with
          | some t => .ok t
          | none => .error .lookupFailed

/-- Model of `select_toolchain` (lines 75–105): resolve, then raise
`FileNotFoundError` if the selected toolchain is not available. -/
def selectToolchain (config : ProjectConfig)
    (tcs : String → Option ToolchainConfig) (fs : FsPath → Bool) :
    Except SelectError ToolchainConfig :=
  match resolveToolchain config tcs with
  | .error e => .error e
  | .ok t => if t.isAvailable fs then .ok t else .error .notFound

/-! ## Builder data model (`src/cpplab/core/builder.py`) -/

/-- The `BuildResult` dataclass.  The wall-clock field `elapsed_ms` (a
float measured with `time.perf_counter`) is outside the model. -/
structure BuildResult where
  success : Bool
  command : List String
  stdout : String
  stderr : String
  exePath : Option FsPath
  skipped : Bool
deriving Repr, DecidableEq

/-- Model of `get_executable_path`: `config.root_path / f"{config.name}.exe"`. -/
def getExecutablePath (config : ProjectConfig) : FsPath :=
  config.rootPath ++ "/" ++ config.name ++ ".exe"

/-- Model of `pathlib.PurePath.stem`: the final path component without its last
suffix (a suffix needs an interior dot, neither leading nor trailing). -/
def pathStem (p : FsPath) : String :=
  let name := (p.data.reverse.takeWhile (fun c => c ≠ '/')).reverse
  let ext := name.reverse.takeWhile (fun c => c ≠ '.')
  if ext.length = name.length then String.mk name
  else
    let i := name.length - ext.length - 1
    if 0 < i ∧ i < name.length - 1 then String.mk (name.take i) else String.mk name

/-- The compiler name: `"gcc"` for C projects, `"g++"` otherwise. -/
def compilerName (config : ProjectConfig) : String :=
  if config.language = "c" then "gcc" else "g++"

/-- The compiler executable `str(toolchain.bin_dir / f"{compiler}.exe")`. -/
def compilerPath (config : ProjectConfig) (t : ToolchainConfig) : String :=
  t.binDir ++ "/" ++ compilerName config ++ ".exe"

/-- The object-file path `obj_dir / f"{source_file.stem}.o"` computed by
`_compile_single_source`. -/
def objFilePath (objDir : FsPath) (sourceFile : FsPath) : FsPath :=
  objDir ++ "/" ++ pathStem sourceFile ++ ".o"

/-- The fixed graphics link libraries appended for `features.graphics`. -/
def graphicsLibs : List String :=
  ["-lbgi", "-lgdi32", "-lcomdlg32", "-luuid", "-lole32", "-loleaut32"]

/-- The link command assembled in the link phase of
`build_project_parallel` (lines 383–392). -/
def linkCommand (config : ProjectConfig) (t : ToolchainConfig)
    (objectFiles : List FsPath) : List String :=
  [compilerPath config t] ++ objectFiles ++ ["-o", getExecutablePath config]
    ++ (if config.featuresOpenmp && t.supportsOpenmp then ["-fopenmp"] else [])
    ++ (if config.featuresGraphics then graphicsLibs else [])

/-- The observable behaviour of the filesystem and of the compiler
subprocesses during one run: `Path.exists`, `stat().st_mtime`, and the
outcome of each per-source `-c` compile and of the link subprocess.
A run of the real program corresponds to one value of this record. -/
structure CompilerEnv where
  fileExists : FsPath → Bool
  fileMtime : FsPath → Int
  compileOk : FsPath → Bool
  compileStdout : FsPath → String
  compileStderr : FsPath → String
  linkOk : Bool
  linkStdout : String
  linkStderr : String

/-- The up-to-date test of `build_project_parallel` (lines 322–326):
some file in `config.files` exists and is newer than the executable. -/
def needsRecompileByMtime (config : ProjectConfig) (env : CompilerEnv)
    (exePath : FsPath) : Bool :=
  config.files.any (fun f =>
    env.fileExists (config.rootPath ++ "/" ++ f)
      && env.fileMtime exePath < env.fileMtime (config.rootPath ++ "/" ++ f))

/-- The `as_completed` aggregation loop of `build_project_parallel`
(lines 352–369): results are consumed in task completion order (the
input list), stdout/stderr are appended when nonempty, each successful
compile appends its object file, and the loop breaks at the first
failure.  Returns `(compile_success, all_stdout, all_stderr,
object_files)`. -/
def compileLoop (env : CompilerEnv) (objDir : FsPath) :
    List FsPath → List String → List String → List FsPath →
    Bool × List String × List String × List FsPath
  | [], outs, errs, objs => (true, outs, errs, objs)
  | f :: rest, outs, errs, objs =>
    let out := env.compileStdout f
    let err := env.compileStderr f
    let outs' := if out ≠ "" then outs ++ [out] else outs
    let errs' := if err ≠ "" then errs ++ [err] else errs
    if env.compileOk f then
      compileLoop env objDir rest outs' errs' (objs ++ [objFilePath objDir f])
    else
      (false, outs', errs', objs)

/-- The result of the parallel path together with the link command that
was handed to `subprocess.run`, if the link phase ran at all. -/
structure ParallelOutcome where
  result : BuildResult
  linkCmd : Option (List String)
deriving Repr, DecidableEq

/-- Model of `build_project_parallel` (lines 296–434) on its parallel path
(`len(config.files) > 2`): select the toolchain (which may raise before
any subprocess is spawned), apply the mtime-based skip check, compile in
task completion order `order`, and link only when every compile
succeeded.  `order` is the order in which `as_completed` yields the
futures — a permutation of `config.files` chosen by the scheduler at
run time. -/
def buildProjectParallelCore (config : ProjectConfig)
    (tcs : String → Option ToolchainConfig) (fs : FsPath → Bool)
    (env : CompilerEnv) (forceRebuild : Bool) (order : List FsPath) :
    Except SelectError ParallelOutcome :=
  match selectToolchain config tcs fs with
  | .error e => .error e
  | .ok toolchain =>
    let exePath := getExecutablePath config
    let objDir := config.rootPath ++ "/build" ++ "/obj"
    if !forceRebuild && env.fileExists exePath
        && !(needsRecompileByMtime config env exePath) then
      .ok { result := { success := true, command := [],
                        stdout := "Build skipped: executable is up to date.",
                        stderr := "", exePath := some exePath, skipped := true },
            linkCmd := none }
    else
      match compileLoop env objDir order [] [] [] with
      | (false, outs, errs, _) =>
        .ok { result := { success := false, command := [],
                          stdout := String.intercalate "\n" outs,
                          stderr := String.intercalate "\n" errs,
                          exePath := none, skipped := false },
              linkCmd := none }
      | (true, outs, errs, objs) =>
        let cmd := linkCommand config toolchain objs
        let outs' := if env.linkStdout ≠ "" then outs ++ [env.linkStdout] else outs
        let errs' := if env.linkStderr ≠ "" then errs ++ [env.linkStderr] else errs
        .ok { result := { success := env.linkOk, command := cmd,
                          stdout := String.intercalate "\n" outs',
                          stderr := String.intercalate "\n" errs',
                          exePath := if env.linkOk then some exePath else none,
                          skipped := false },
              linkCmd := some cmd }

/-- Model of `build_project_parallel` including its initial guard: with 2 or
fewer files it delegates to the sequential `build_project` (returned as
`none` here), otherwise the parallel path runs. -/
def buildProjectParallel (config : ProjectConfig)
    (tcs : String → Option ToolchainConfig) (fs : FsPath → Bool)
    (env : CompilerEnv) (forceRebuild : Bool) (order : List FsPath) :
    Option (Except SelectError ParallelOutcome) :=
  if config.files.length ≤ 2 then none
  else some (buildProjectParallelCore config tcs fs env forceRebuild order)

/-! ## DependencyCache (`builder.py`, lines 27–116)

The in-memory state of a `DependencyCache` is its `file_hashes` dict
(path → blake2b digest) and its `dependencies` adjacency map (path →
set of headers).  Dicts are modelled as association lists where an
assignment prepends a binding and `lookup` finds the newest one.  The
disk is modelled as `disk : FsPath → Option String`: `none` when
`path.exists()` is false, otherwise the digest `_hash_file` computes. -/

/-- Model of the `file_hashes` dict. -/
abbrev HashMapL := List (FsPath × String)

/-- Dict lookup `self.file_hashes.get(path)`. -/
def lookupHash (hs : HashMapL) (p : FsPath) : Option String :=
  (hs.find? (fun e => e.1 == p)).map (fun e => e.2)

/-- Dict assignment `self.file_hashes[path] = h`. -/
def insertHash (hs : HashMapL) (p : FsPath) (h : String) : HashMapL :=
  (p, h) :: hs

/-- Model of the `dependencies` adjacency map. -/
abbrev DepGraph := List (FsPath × List FsPath)

/-- Lookup `self.dependencies[current]` on the defaultdict: the stored header
set, empty when absent. -/
def depsOf (deps : DepGraph) (p : FsPath) : List FsPath :=
  ((deps.find? (fun e => e.1 == p)).map (fun e => e.2)).getD []

/-- Model of `DependencyCache._check_hash` (lines 44–55): `False` when the file
does not exist; otherwise compare the current digest against the cached
one, and on a mismatch overwrite the cached digest with the current one
before returning `False`. -/
def checkHash (disk : FsPath → Option String) (hs : HashMapL) (p : FsPath) :
    Bool × HashMapL :=
  match disk p with
  | none => (false, hs)
  | some h =>
    if lookupHash hs p = some h then (true, hs)
    else (false, insertHash hs p h)

/-- The BFS loop of `DependencyCache.needs_rebuild` (lines 94–108),
with an explicit fuel so the function is structurally recursive: FIFO
queue, a visited set that each popped node joins before being checked,
short-circuit `True` on the first hash mismatch, and queue extension by
`self.dependencies[current] - visited`. -/
def rebuildBfs (disk : FsPath → Option String) (deps : DepGraph) :
    Nat → HashMapL → List FsPath → List FsPath → Option (Bool × HashMapL)
  | 0, _, _, _ => none
  | _ + 1, hs, [], _ => some (false, hs)
  | fuel + 1, hs, current :: rest, visited =>
    if current ∈ visited then rebuildBfs disk deps fuel hs rest visited
    else
      let visited' := current :: visited
      match checkHash disk hs current with
      | (true, hs') =>
        rebuildBfs disk deps fuel hs'
          (rest ++ (depsOf deps current).filter (fun d => !decide (d ∈ visited')))
          visited'
      | (false, hs') => some (true, hs')

/-- Model of `DependencyCache.needs_rebuild` (lines 85–108): the initial
`_check_hash(source)` short-circuit, then the BFS from `source` with an
empty visited set. -/
def needsRebuild (disk : FsPath → Option String) (deps : DepGraph)
    (fuel : Nat) (hs : HashMapL) (source : FsPath) : Option (Bool × HashMapL) :=
  match checkHash disk hs source with
  | (false, hs') => some (true, hs')
  | (true, hs') => rebuildBfs disk deps fuel hs' [source] []

/-- Every file that can ever enter the BFS queue: the source plus every
key and every header of the adjacency map. -/
def depUniverse (deps : DepGraph) (source : FsPath) : List FsPath :=
  (source :: (deps.map (fun e => e.1 :: e.2)).flatten).dedup

/-- An upper bound on the size of any stored header set. -/
def maxDegree (deps : DepGraph) : Nat :=
  (deps.map (fun e => e.2.length)).foldr max 0

/-- Termination measure for the BFS: unvisited universe nodes weighted
by the largest possible queue extension, plus the queue length. -/
def bfsMeasure (deps : DepGraph) (source : FsPath)
    (queue visited : List FsPath) : Nat :=
  ((depUniverse deps source).filter (fun x => !decide (x ∈ visited))).length
      * (maxDegree deps + 1)
    + queue.length

/-- Fuel that always suffices for `needs_rebuild`'s BFS to finish. -/
def rebuildFuel (deps : DepGraph) (source : FsPath) : Nat :=
  (depUniverse deps source).length * (maxDegree deps + 1) + 2

/-- A cached digest that agrees with the disk: the file exists and the
stored digest equals the current one. -/
def hashConsistent (disk : FsPath → Option String) (hs : HashMapL)
    (q : FsPath) : Prop :=
  (disk q).isSome ∧ lookupHash hs q = disk q

instance (disk : FsPath → Option String) (hs : HashMapL) (q : FsPath) :
    Decidable (hashConsistent disk hs q) := by
  unfold hashConsistent; infer_instance

/-! ## FileExistenceCache (`builder.py`, lines 119–179)

The bloom filter's bit store is the `bytearray` `self.bits`, modelled as
a function from byte index to byte value.  The blake2b digest used by
`_hash` is an arbitrary function of the path and the seed, passed in as
the parameter `hashRaw`; `_hash` reduces it modulo `size`. -/

/-- The `FileExistenceCache.__init__` state: filter geometry, bit store and
the `_confirmed_exists` set. -/
structure FileExistenceCache where
  size : Nat
  numHashes : Nat
  bits : Nat → Nat
  confirmed : List FsPath

/-- A fresh cache: all bits zero, no confirmed paths. -/
def mkFileExistenceCache (size numHashes : Nat) : FileExistenceCache :=
  { size := size, numHashes := numHashes, bits := fun _ => 0, confirmed := [] }

/-- Model of `FileExistenceCache._hash`: the blake2b digest reduced mod `size`. -/
def bloomIdx (size : Nat) (hashRaw : FsPath → Nat → Nat)
    (p : FsPath) (seed : Nat) : Nat :=
  hashRaw p seed % size

/-- Model of `FileExistenceCache._set_bit`: OR the byte at `pos // 8` with
`1 << (pos % 8)`. -/
def setBit (bits : Nat → Nat) (pos : Nat) : Nat → Nat :=
  fun i => if i = pos / 8 then bits (pos / 8) ||| (1 <<< (pos % 8)) else bits i

/-- Model of `FileExistenceCache._get_bit`: `bool(bits[pos // 8] & (1 << (pos % 8)))`,
i.e. bit `pos % 8` of byte `pos // 8`. -/
def getBit (bits : Nat → Nat) (pos : Nat) : Bool :=
  (bits (pos / 8)).testBit (pos % 8)

/-- Model of `FileExistenceCache.add` (lines 152–157): set the bit of every
seeded hash and insert the path into `_confirmed_exists`. -/
def FileExistenceCache.add (hashRaw : FsPath → Nat → Nat)
    (c : FileExistenceCache) (p : FsPath) : FileExistenceCache :=
  { c with
    bits := (List.range c.numHashes).foldl
      (fun b i => setBit b (bloomIdx c.size hashRaw p i)) c.bits,
    confirmed := p :: c.confirmed }

/-- Model of `FileExistenceCache.might_exist` (lines 159–165): every seeded hash
bit is set. -/
def FileExistenceCache.mightExist (hashRaw : FsPath → Nat → Nat)
    (c : FileExistenceCache) (p : FsPath) : Bool :=
  (List.range c.numHashes).all (fun i => getBit c.bits (bloomIdx c.size hashRaw p i))

/-- Model of `FileExistenceCache.exists` (lines 167–179): exact-membership fast
path, then the filter, then the real filesystem check `fsE`, promoting
a confirmed hit via `add`.  Returns the answer and the new state. -/
def FileExistenceCache.existsCheck (hashRaw : FsPath → Nat → Nat)
    (fsE : FsPath → Bool) (c : FileExistenceCache) (p : FsPath) :
    Bool × FileExistenceCache :=
  if p ∈ c.confirmed then (true, c)
  else if !(c.mightExist hashRaw p) then (false, c)
  else if fsE p then (true, c.add hashRaw p) else (false, c)

/-- The state-changing operations of the cache's public interface:
`add(p)` and `exists(p)` (`might_exist` never mutates). -/
inductive CacheOp where
  | add (p : FsPath)
  | query (p : FsPath)
deriving Repr, DecidableEq

/-- Apply one operation to the cache state. -/
def applyCacheOp (hashRaw : FsPath → Nat → Nat) (fsE : FsPath → Bool)
    (c : FileExistenceCache) : CacheOp → FileExistenceCache
  | .add p => c.add hashRaw p
  | .query p => (c.existsCheck hashRaw fsE p).2

/-- Apply a sequence of operations, oldest first. -/
def applyCacheOps (hashRaw : FsPath → Nat → Nat) (fsE : FsPath → Bool)
    (c : FileExistenceCache) (ops : List CacheOp) : FileExistenceCache :=
  ops.foldl (applyCacheOp hashRaw fsE) c

/-! ## Concrete fixtures used by counterexamples and witnesses -/

/-- A three-file console project on the parallel build path. -/
def demoConfig : ProjectConfig :=
  { name := "demo", rootPath := "proj", language := "cpp",
    standard := "c++17", projectType := "console",
    featuresGraphics := false, featuresOpenmp := false,
    files := ["a.cpp", "b.cpp", "c.cpp"], mainFile := "a.cpp",
    toolchainPreference := "auto" }

/-- The standard two-toolchain registry rooted at `compilers/`. -/
def demoTcs : String → Option ToolchainConfig := getToolchains "compilers"

/-- A filesystem on which every path exists. -/
def allPathsExist : FsPath → Bool := fun _ => true

/-- A filesystem on which no path exists. -/
def noPathsExist : FsPath → Bool := fun _ => false

/-- A graphics project that explicitly prefers the 64-bit toolchain. -/
def graphicsConfig : ProjectConfig :=
  { demoConfig with featuresGraphics := true, toolchainPreference := "mingw64" }

/-- A run in which every compile succeeds silently and the link
succeeds. -/
def quietEnv : CompilerEnv :=
  { fileExists := fun _ => true, fileMtime := fun _ => 0,
    compileOk := fun _ => true, compileStdout := fun _ => "",
    compileStderr := fun _ => "", linkOk := true,
    linkStdout := "", linkStderr := "" }

/-- A run in which exactly one source (`b.cpp`) fails to compile. -/
def oneFailEnv : CompilerEnv :=
  { quietEnv with
    compileOk := fun f => !(f == "b.cpp"),
    compileStderr := fun f => if f == "b.cpp" then "b.cpp:1:1: error: boom" else "" }

/-- The project of the header-modification scenario. -/
def c2Config : ProjectConfig :=
  { demoConfig with files := ["main.cpp", "a.cpp", "b.cpp"], mainFile := "main.cpp" }

/-- Run state for the header-modification scenario: the executable
(`proj/demo.exe`, mtime 100) is newer than every listed source (mtime
50), but the header `proj/util.h` was just modified (mtime 200). -/
def c2Env : CompilerEnv :=
  { quietEnv with
    fileMtime := fun p =>
      if p = "proj/util.h" then 200
      else if p = "proj/demo.exe" then 100
      else 50 }

/-- The dependency edge `main.cpp → util.h` recorded by the include
scanner. -/
def c2Deps : DepGraph := [("proj/main.cpp", ["proj/util.h"])]

/-- On-disk digests for the header-modification scenario: only
`util.h`'s content changed. -/
def c2Disk : FsPath → Option String := fun p =>
  if p = "proj/main.cpp" then some "digest-main"
  else if p = "proj/util.h" then some "digest-util-new"
  else if p = "proj/a.cpp" then some "digest-a"
  else if p = "proj/b.cpp" then some "digest-b"
  else none

/-- Cached digests from the previous build of the same scenario. -/
def c2Hashes : HashMapL :=
  [("proj/main.cpp", "digest-main"), ("proj/util.h", "digest-util-old"),
   ("proj/a.cpp", "digest-a"), ("proj/b.cpp", "digest-b")]

/-- A cyclic dependency graph: `m.cpp` and `u.h` include each other. -/
def c10Deps : DepGraph := [("m.cpp", ["u.h"]), ("u.h", ["m.cpp"])]

/-- Disk digests with `m.cpp` changed and `u.h` unchanged. -/
def c10Disk : FsPath → Option String := fun p =>
  if p = "m.cpp" then some "digest-new"
  else if p = "u.h" then some "digest-u" else none

/-- Cached digests with a stale entry for `m.cpp`. -/
def c10Hashes : HashMapL := [("m.cpp", "digest-old"), ("u.h", "digest-u")]

/-- A degenerate blake2b stand-in on which every path collides. -/
def collideHash : FsPath → Nat → Nat := fun _ _ => 0

/-- A cache holding only `proj/a.h`; under `collideHash`, the filter
answers "maybe" for every other path as well. -/
def c6Cache : FileExistenceCache :=
  (mkFileExistenceCache 10000 3).add collideHash "proj/a.h"

/-! ## C8: diagnostics parsing -/

/-- C8: `parse_gcc_output` maps `"bad.c:10:5: error: missing semicolon\n"`
to exactly one diagnostic `(bad.c, 10, 5, error, "missing semicolon")`;
whatever line the `fatal error` keyword is matched on, the resulting
severity is `error`; any input none of whose lines matches
`GCC_LINE_RE` parses to `[]`; and the empty input parses to `[]`
(the function is total, so it never raises). -/
theorem c8_diagnostic_parsing :
    parseGccOutput "bad.c:10:5: error: missing semicolon\n" =
      [{ file := "bad.c", line := 10, column := 5,
         message := "missing semicolon", severity := "error" }]
    ∧ (∀ cs file line col msg,
        matchFileSplit [] cs = some (file, line, col, "fatal error", msg) →
        (matchGccLine cs).map Diagnostic.severity = some "error")
    ∧ (∀ text, (∀ l ∈ splitOnNl text.data, matchGccLine (stripChars l) = none) →
        parseGccOutput text = [])
    ∧ parseGccOutput "" = [] := by
  refine ⟨by decide, ?_, ?_, rfl⟩
  · intro cs file line col msg hmatch
    simp [matchGccLine, hmatch]
  · intro text hnone
    unfold parseGccOutput
    split
    · rfl
    · rw [List.filterMap_eq_nil_iff]
      intro l hl
      by_cases he : (stripChars l).isEmpty
      · simp [he]
      · simp [he, hnone l hl]

/-- Witness for C8: a concrete input with no matching line parses to
the empty list. -/
theorem c8_diagnostic_parsing_witness :
    parseGccOutput "compilation terminated.\nIn function main:" = [] :=
  c8_diagnostic_parsing.2.2.1 "compilation terminated.\nIn function main:" (by decide)

/-! ## C4: graphics forces the 32-bit toolchain -/

/-- C4: with the standard two-entry registry, a spec with the graphics
feature set (or graphics project type) resolves to the `mingw32`
toolchain — which is the 32-bit one — regardless of its
`toolchain_preference`. -/
theorem c4_graphics_forces_mingw32 (config : ProjectConfig) (dir : FsPath)
    (hg : config.featuresGraphics = true ∨ config.projectType = "graphics") :
    resolveToolchain config (getToolchains dir) = .ok (mingw32Config dir)
    ∧ (mingw32Config dir).is32bit = true := by
  refine ⟨?_, rfl⟩
  have hug : usesGraphics config = true := by
    rcases hg with h | h <;> simp [usesGraphics, h]
  simp [resolveToolchain, hug, getToolchains]

/-- Witness for C4: a graphics project explicitly preferring `mingw64`
still resolves to `mingw32`. -/
theorem c4_graphics_forces_mingw32_witness :
    resolveToolchain graphicsConfig (getToolchains "compilers")
        = .ok (mingw32Config "compilers")
    ∧ (mingw32Config "compilers").is32bit = true :=
  c4_graphics_forces_mingw32 graphicsConfig "compilers" (Or.inl rfl)

/-! ## C7: unavailable toolchain raises, with no silent fallback -/

/-- C7: if the toolchain the rules resolve to is not available,
`select_toolchain` raises `FileNotFoundError`; whenever it does return
a toolchain, it is exactly the resolved (available) one, never the
other bitness as a silent fallback; and the exception propagates out of
`build_project_parallel` before any outcome — hence before any
subprocess — is produced. -/
theorem c7_unavailable_toolchain_raises (config : ProjectConfig)
    (tcs : String → Option ToolchainConfig) (fs : FsPath → Bool) :
    (∀ t, resolveToolchain config tcs = .ok t → t.isAvailable fs = false →
      selectToolchain config tcs fs = .error .notFound)
    ∧ (∀ t, selectToolchain config tcs fs = .ok t →
        resolveToolchain config tcs = .ok t ∧ t.isAvailable fs = true)
    ∧ (∀ e env force order, selectToolchain config tcs fs = .error e →
        buildProjectParallelCore config tcs fs env force order = .error e) := by
  refine ⟨?_, ?_, ?_⟩
  · intro t hres hna
    simp [selectToolchain, hres, hna]
  · intro t hsel
    unfold selectToolchain at hsel
    rcases hres : resolveToolchain config tcs with e | t'
    · rw [hres] at hsel; cases hsel
    · simp only [hres] at hsel
      by_cases hav : t'.isAvailable fs = true
      · rw [if_pos hav] at hsel
        injection hsel with h
        subst h
        exact ⟨rfl, hav⟩
      · rw [if_neg hav] at hsel; cases hsel
  · intro e env force order hsel
    simp [buildProjectParallelCore, hsel]

/-- Witness for C7: with no toolchain binaries on disk, selecting for
the demo project raises instead of returning a toolchain. -/
theorem c7_unavailable_toolchain_raises_witness :
    selectToolchain demoConfig demoTcs noPathsExist = .error .notFound :=
  (c7_unavailable_toolchain_raises demoConfig demoTcs noPathsExist).1
    (mingw64Config "compilers") (by rfl) (by rfl)

/-! ## C6: `exists` falls back to the real filesystem check -/

/-- C6: when the path is not already in the exact-membership set and
the filter says "maybe", `exists` performs the real filesystem check
and returns its result — it never answers `true` unconfirmed — and a
confirmed hit is promoted into `_confirmed_exists`, while a miss leaves
the cache unchanged. -/
theorem c6_exists_falls_back_to_fs (hashRaw : FsPath → Nat → Nat)
    (fsE : FsPath → Bool) (c : FileExistenceCache) (p : FsPath)
    (hnc : p ∉ c.confirmed) (hmaybe : c.mightExist hashRaw p = true) :
    (c.existsCheck hashRaw fsE p).1 = fsE p
    ∧ (fsE p = true → p ∈ (c.existsCheck hashRaw fsE p).2.confirmed)
    ∧ (fsE p = false → (c.existsCheck hashRaw fsE p).2 = c) := by
  unfold FileExistenceCache.existsCheck
  rw [if_neg hnc, hmaybe]
  by_cases hf : fsE p
  · simp [hf, FileExistenceCache.add]
  · simp [hf]

/-- Witness for C6: under the all-colliding hash, the filter says
"maybe" for the never-added `proj/b.h`; with the file present on disk,
`exists` answers `true` and promotes the path. -/
theorem c6_exists_falls_back_to_fs_witness :
    (c6Cache.existsCheck collideHash allPathsExist "proj/b.h").1 = true
    ∧ "proj/b.h" ∈ (c6Cache.existsCheck collideHash allPathsExist "proj/b.h").2.confirmed := by
  have h := c6_exists_falls_back_to_fs collideHash allPathsExist c6Cache "proj/b.h"
    (by decide) (by decide)
  exact ⟨h.1, h.2.1 rfl⟩

/-! ## C1: link order is completion order, not declaration order -/

/-- C1 is refuted by the code: the object list handed to the linker
follows the task completion order.  The same project, sources and
toolchain with two different completion orders produce two different
link commands, and the reversed completion order yields the reversed
object list rather than the `spec.files` declaration order. -/
theorem c1_link_order_counterexample :
    (buildProjectParallel demoConfig demoTcs allPathsExist quietEnv true
        ["c.cpp", "b.cpp", "a.cpp"]).map (Except.map (fun o => o.linkCmd))
      = some (.ok (some (linkCommand demoConfig (mingw64Config "compilers")
          ["proj/build/obj/c.o", "proj/build/obj/b.o", "proj/build/obj/a.o"])))
    ∧ (buildProjectParallel demoConfig demoTcs allPathsExist quietEnv true
        demoConfig.files).map (Except.map (fun o => o.linkCmd))
      = some (.ok (some (linkCommand demoConfig (mingw64Config "compilers")
          ["proj/build/obj/a.o", "proj/build/obj/b.o", "proj/build/obj/c.o"])))
    ∧ linkCommand demoConfig (mingw64Config "compilers")
          ["proj/build/obj/c.o", "proj/build/obj/b.o", "proj/build/obj/a.o"]
      ≠ linkCommand demoConfig (mingw64Config "compilers")
          ["proj/build/obj/a.o", "proj/build/obj/b.o", "proj/build/obj/c.o"] :=
  ⟨rfl, rfl, by decide⟩

/-! ## C2: the skip check ignores headers and the dependency graph -/

/-- C2 is refuted by the code: the parallel build's skip check compares
only the mtimes of the files listed in `spec.files`.  With the header
`proj/util.h` just modified (newer than the executable and with a
mismatching digest, so `DependencyCache.needs_rebuild` reports `True`),
the build still returns `skipped=true`. -/
theorem c2_header_change_counterexample :
    (buildProjectParallel c2Config demoTcs allPathsExist c2Env false
        c2Config.files).map (Except.map (fun o => (o.result.skipped, o.result.success)))
      = some (.ok (true, true))
    ∧ (needsRebuild c2Disk c2Deps (rebuildFuel c2Deps "proj/main.cpp")
        c2Hashes "proj/main.cpp").map (fun r => r.1) = some true :=
  ⟨rfl, rfl⟩

/-! ## C5: the bloom filter has no false negatives -/

/-- Setting a bit makes `_get_bit` see it. -/
theorem getBit_setBit_self (bits : Nat → Nat) (pos : Nat) :
    getBit (setBit bits pos) pos = true := by
  simp [getBit, setBit, Nat.testBit_lor, Nat.shiftLeft_eq, Nat.testBit_two_pow_self]

/-- Setting a bit never clears another one. -/
theorem getBit_setBit_mono (bits : Nat → Nat) (pos pos' : Nat)
    (h : getBit bits pos = true) : getBit (setBit bits pos') pos = true := by
  by_cases he : pos / 8 = pos' / 8
  · unfold getBit setBit
    rw [if_pos he, ← he]
    unfold getBit at h
    simp [Nat.testBit_lor, h]
  · unfold getBit setBit
    rw [if_neg he]
    exact h

/-- A whole `add` loop of `_set_bit` calls never clears a bit. -/
theorem getBit_foldl_setBit (l : List Nat) (idx : Nat → Nat) (bits : Nat → Nat)
    (pos : Nat) (h : getBit bits pos = true) :
    getBit (l.foldl (fun b i => setBit b (idx i)) bits) pos = true := by
  induction l generalizing bits with
  | nil => exact h
  | cons a t ih => exact ih _ (getBit_setBit_mono _ _ _ h)

/-- After the `add` loop, every seeded position's bit is set. -/
theorem getBit_foldl_setBit_mem (l : List Nat) (idx : Nat → Nat) (bits : Nat → Nat)
    (j : Nat) (hj : j ∈ l) :
    getBit (l.foldl (fun b i => setBit b (idx i)) bits) (idx j) = true := by
  induction l generalizing bits with
  | nil => cases hj
  | cons a t ih =>
    rcases List.mem_cons.1 hj with rfl | hj'
    · exact getBit_foldl_setBit t idx _ _ (getBit_setBit_self _ _)
    · exact ih _ hj'

/-- Immediately after `add(p)`, `might_exist(p)` is `true`. -/
theorem mightExist_add_self (hashRaw : FsPath → Nat → Nat)
    (c : FileExistenceCache) (p : FsPath) :
    (c.add hashRaw p).mightExist hashRaw p = true := by
  unfold FileExistenceCache.add FileExistenceCache.mightExist
  simp only [List.all_eq_true]
  intro i hi
  exact getBit_foldl_setBit_mem _ _ _ i hi

/-- Adding via `add(q)` preserves a true `might_exist(p)` for every `p`. -/
theorem mightExist_add_mono (hashRaw : FsPath → Nat → Nat)
    (c : FileExistenceCache) (p q : FsPath)
    (h : c.mightExist hashRaw p = true) :
    (c.add hashRaw q).mightExist hashRaw p = true := by
  unfold FileExistenceCache.add FileExistenceCache.mightExist at *
  simp only [List.all_eq_true] at *
  intro i hi
  exact getBit_foldl_setBit _ _ _ _ (h i hi)

/-- Every public cache operation preserves a true `might_exist(p)`:
bits are only ever set, entries never removed. -/
theorem mightExist_op_mono (hashRaw : FsPath → Nat → Nat) (fsE : FsPath → Bool)
    (c : FileExistenceCache) (o : CacheOp) (p : FsPath)
    (h : c.mightExist hashRaw p = true) :
    (applyCacheOp hashRaw fsE c o).mightExist hashRaw p = true := by
  cases o with
  | add q => exact mightExist_add_mono hashRaw c p q h
  | query q =>
    show ((c.existsCheck hashRaw fsE q).2.mightExist hashRaw p) = true
    unfold FileExistenceCache.existsCheck
    by_cases h1 : q ∈ c.confirmed
    · simpa [h1] using h
    · rw [if_neg h1]
      by_cases h2 : c.mightExist hashRaw q
      · simp only [h2]
        by_cases h3 : fsE q
        · simpa [h3] using mightExist_add_mono hashRaw c p q h
        · simpa [h3] using h
      · simp only [Bool.not_eq_true] at h2
        simpa [h2] using h

/-- C5: once `add(p)` has been called, `might_exist(p)` returns `true`
in every later state reachable by any sequence of `add`/`exists`
operations — the filter has zero false negatives. -/
theorem c5_no_false_negatives (hashRaw : FsPath → Nat → Nat) (fsE : FsPath → Bool)
    (c : FileExistenceCache) (p : FsPath) (ops : List CacheOp) :
    (applyCacheOps hashRaw fsE (c.add hashRaw p) ops).mightExist hashRaw p = true := by
  have h0 := mightExist_add_self hashRaw c p
  unfold applyCacheOps
  generalize c.add hashRaw p = c0 at h0 ⊢
  induction ops generalizing c0 with
  | nil => exact h0
  | cons o t ih => exact ih _ (mightExist_op_mono hashRaw fsE c0 o p h0)

/-! ## C3: one failing compile means no link -/

/-- If any source in the completion order fails to compile, the
aggregation loop reports failure. -/
theorem compileLoop_fails_of_mem (env : CompilerEnv) (objDir : FsPath) :
    ∀ (order : List FsPath) (outs errs : List String) (objs : List FsPath),
      (∃ f ∈ order, env.compileOk f = false) →
      (compileLoop env objDir order outs errs objs).1 = false := by
  intro order
  induction order with
  | nil =>
    rintro _ _ _ ⟨f, hf, _⟩
    cases hf
  | cons a t ih =>
    rintro outs errs objs ⟨f, hf, hfail⟩
    by_cases ha : env.compileOk a = true
    · simp only [compileLoop, ha, if_true]
      apply ih
      rcases List.mem_cons.1 hf with rfl | hft
      · rw [ha] at hfail; cases hfail
      · exact ⟨f, hft, hfail⟩
    · simp [compileLoop, ha]

/-- C3: on the parallel path (more than 2 files), whenever exactly one
source fails to compile — in whatever order the tasks complete — the
build returns `success=false` with `exe_path=None`, and the link
subprocess is never spawned. -/
theorem c3_single_failure_no_link (config : ProjectConfig)
    (tcs : String → Option ToolchainConfig) (fs : FsPath → Bool)
    (env : CompilerEnv) (force : Bool) (order : List FsPath) (t : ToolchainConfig)
    (hn : 2 < config.files.length)
    (hsel : selectToolchain config tcs fs = .ok t)
    (hperm : order.Perm config.files)
    (hone : (config.files.filter (fun f => !env.compileOk f)).length = 1)
    (hskip : (!force && env.fileExists (getExecutablePath config)
        && !(needsRecompileByMtime config env (getExecutablePath config))) = false) :
    ∃ o : ParallelOutcome,
      buildProjectParallel config tcs fs env force order = some (.ok o)
      ∧ o.result.success = false ∧ o.result.exePath = none ∧ o.linkCmd = none := by
  have hfail : ∃ f ∈ order, env.compileOk f = false := by
    have hne : config.files.filter (fun f => !env.compileOk f) ≠ [] := by
      intro hnil
      rw [hnil] at hone
      cases hone
    rcases List.exists_mem_of_ne_nil _ hne with ⟨f, hf⟩
    rcases List.mem_filter.1 hf with ⟨hmem, hpred⟩
    refine ⟨f, hperm.mem_iff.2 hmem, ?_⟩
    simpa using hpred
  have hloop := compileLoop_fails_of_mem env
    (config.rootPath ++ "/build" ++ "/obj") order [] [] [] hfail
  rcases hcl : compileLoop env (config.rootPath ++ "/build" ++ "/obj") order [] [] []
    with ⟨b, outs, errs, objs⟩
  rw [hcl] at hloop
  simp only at hloop
  subst hloop
  refine ⟨{ result := { success := false, command := [],
                        stdout := String.intercalate "\n" outs,
                        stderr := String.intercalate "\n" errs,
                        exePath := none, skipped := false },
            linkCmd := none }, ?_, rfl, rfl, rfl⟩
  unfold buildProjectParallel
  rw [if_neg (by omega)]
  unfold buildProjectParallelCore
  rw [hsel]
  simp only [hskip, Bool.false_and, Bool.and_false]
  rw [hcl]
  rfl

/-- Witness for C3: the demo project with `b.cpp` failing, completion
order reversed, forced rebuild. -/
theorem c3_single_failure_no_link_witness :
    ∃ o : ParallelOutcome,
      buildProjectParallel demoConfig demoTcs allPathsExist oneFailEnv true
          ["c.cpp", "b.cpp", "a.cpp"] = some (.ok o)
      ∧ o.result.success = false ∧ o.result.exePath = none ∧ o.linkCmd = none :=
  c3_single_failure_no_link demoConfig demoTcs allPathsExist oneFailEnv true
    ["c.cpp", "b.cpp", "a.cpp"] (mingw64Config "compilers")
    (by decide) (by rfl) (by decide) (by decide) (by rfl)

/-! ## C9: the visited-set BFS of `needs_rebuild` terminates -/

/-- Every member of a list of naturals is bounded by its `max`-fold. -/
theorem le_foldr_max (l : List Nat) (a : Nat) (ha : a ∈ l) :
    a ≤ l.foldr max 0 := by
  induction l with
  | nil => cases ha
  | cons b t ih =>
    rcases List.mem_cons.1 ha with rfl | h
    · exact le_max_left _ _
    · exact le_trans (ih h) (le_max_right _ _)

/-- No stored header set is larger than `maxDegree`. -/
theorem depsOf_length_le (deps : DepGraph) (p : FsPath) :
    (depsOf deps p).length ≤ maxDegree deps := by
  unfold depsOf maxDegree
  cases hf : deps.find? (fun e => e.1 == p) with
  | none => simp
  | some e =>
    simp only [Option.map_some', Option.getD_some]
    exact le_foldr_max _ _ (List.mem_map_of_mem _ (List.mem_of_find?_eq_some hf))

/-- Every stored header lies in the BFS universe. -/
theorem depsOf_mem_universe (deps : DepGraph) (source p q : FsPath)
    (hq : q ∈ depsOf deps p) : q ∈ depUniverse deps source := by
  unfold depUniverse
  rw [List.mem_dedup]
  apply List.mem_cons_of_mem
  unfold depsOf at hq
  cases hf : deps.find? (fun e => e.1 == p) with
  | none => rw [hf] at hq; cases hq
  | some e =>
    rw [hf] at hq
    simp only [Option.map_some', Option.getD_some] at hq
    rw [List.mem_flatten]
    exact ⟨e.1 :: e.2, List.mem_map_of_mem _ (List.mem_of_find?_eq_some hf),
      List.mem_cons_of_mem _ hq⟩

/-- The source file lies in the BFS universe. -/
theorem source_mem_universe (deps : DepGraph) (source : FsPath) :
    source ∈ depUniverse deps source := by
  unfold depUniverse
  rw [List.mem_dedup]
  exact List.mem_cons_self _ _

/-- A pointwise-stronger Boolean predicate keeps no more elements. -/
theorem length_filter_le_mono {α : Type} (p q : α → Bool) (l : List α)
    (h : ∀ x ∈ l, p x = true → q x = true) :
    (l.filter p).length ≤ (l.filter q).length := by
  induction l with
  | nil => simp
  | cons a t ih =>
    have ih' := ih (fun x hx => h x (List.mem_cons_of_mem _ hx))
    by_cases hp : p a = true
    · have hq := h a (List.mem_cons_self _ _) hp
      simp only [List.filter_cons, hp, hq, if_true, List.length_cons]
      omega
    · rw [Bool.not_eq_true] at hp
      by_cases hq : q a = true
      · simp only [List.filter_cons, hp, hq, if_true, Bool.false_eq_true, if_false,
          List.length_cons]
        omega
      · rw [Bool.not_eq_true] at hq
        simp only [List.filter_cons, hp, hq, Bool.false_eq_true, if_false]
        omega

/-- A pointwise-stronger predicate that additionally drops a kept
member keeps strictly fewer elements. -/
theorem length_filter_lt_strict {α : Type} (p q : α → Bool) (l : List α) (c : α)
    (hmono : ∀ x ∈ l, p x = true → q x = true)
    (hc : c ∈ l) (hpc : p c = false) (hqc : q c = true) :
    (l.filter p).length < (l.filter q).length := by
  induction l with
  | nil => cases hc
  | cons a t ih =>
    have hmono' : ∀ x ∈ t, p x = true → q x = true :=
      fun x hx => hmono x (List.mem_cons_of_mem _ hx)
    rcases List.mem_cons.1 hc with rfl | hct
    · have hle := length_filter_le_mono p q t hmono'
      simp only [List.filter_cons, hpc, hqc, if_true, Bool.false_eq_true, if_false,
        List.length_cons]
      omega
    · have hlt := ih hmono' hct
      by_cases hp : p a = true
      · have hq := hmono a (List.mem_cons_self _ _) hp
        simp only [List.filter_cons, hp, hq, if_true, List.length_cons]
        omega
      · rw [Bool.not_eq_true] at hp
        by_cases hq : q a = true
        · simp only [List.filter_cons, hp, hq, if_true, Bool.false_eq_true, if_false,
            List.length_cons]
          omega
        · rw [Bool.not_eq_true] at hq
          simp only [List.filter_cons, hp, hq, Bool.false_eq_true, if_false]
          omega

/-- Popping an already-visited node shrinks the measure. -/
theorem bfsMeasure_pop (deps : DepGraph) (source current : FsPath)
    (rest visited : List FsPath) :
    bfsMeasure deps source rest visited
      < bfsMeasure deps source (current :: rest) visited := by
  unfold bfsMeasure
  simp only [List.length_cons]
  omega

/-- Visiting a fresh universe node shrinks the measure by at least two,
even after the queue is extended by the node's unvisited headers. -/
theorem bfsMeasure_visit (deps : DepGraph) (source current : FsPath)
    (rest visited : List FsPath)
    (hU : current ∈ depUniverse deps source) (hv : current ∉ visited) :
    bfsMeasure deps source
        (rest ++ (depsOf deps current).filter (fun d => !decide (d ∈ current :: visited)))
        (current :: visited) + 1
      < bfsMeasure deps source (current :: rest) visited := by
  unfold bfsMeasure
  have hstrict :
      ((depUniverse deps source).filter (fun x => !decide (x ∈ current :: visited))).length
        < ((depUniverse deps source).filter (fun x => !decide (x ∈ visited))).length := by
    apply length_filter_lt_strict _ _ _ current
    · intro x _ hx
      simp only [Bool.not_eq_true', decide_eq_false_iff_not, List.mem_cons] at hx ⊢
      exact fun hxv => hx (Or.inr hxv)
    · exact hU
    · simp
    · simp [hv]
  have hk : ((depsOf deps current).filter
      (fun d => !decide (d ∈ current :: visited))).length ≤ maxDegree deps :=
    le_trans (List.length_filter_le _ _) (depsOf_length_le deps current)
  have hmul := Nat.mul_le_mul_right (maxDegree deps + 1) (Nat.succ_le_of_lt hstrict)
  rw [Nat.succ_mul] at hmul
  simp only [List.length_append, List.length_cons]
  omega

/-- With fuel exceeding the measure, the BFS always returns a result —
no hypothesis of acyclicity anywhere. -/
theorem rebuildBfs_isSome (disk : FsPath → Option String) (deps : DepGraph)
    (source : FsPath) :
    ∀ (fuel : Nat) (hs : HashMapL) (queue visited : List FsPath),
      (∀ q ∈ queue, q ∈ depUniverse deps source) →
      bfsMeasure deps source queue visited < fuel →
      (rebuildBfs disk deps fuel hs queue visited).isSome = true := by
  intro fuel
  induction fuel with
  | zero =>
    intro hs queue visited _ hμ
    cases hμ
  | succ n ih =>
    intro hs queue visited hq hμ
    cases queue with
    | nil => simp [rebuildBfs]
    | cons current rest =>
      by_cases hv : current ∈ visited
      · rw [rebuildBfs, if_pos hv]
        refine ih hs rest visited (fun q hq' => hq q (List.mem_cons_of_mem _ hq')) ?_
        have := bfsMeasure_pop deps source current rest visited
        omega
      · rw [rebuildBfs, if_neg hv]
        rcases hch : checkHash disk hs current with ⟨ok, hs'⟩
        cases ok with
        | false => simp [hch]
        | true =>
          simp only [hch]
          refine ih hs' _ _ ?_ ?_
          · intro q hq'
            rcases List.mem_append.1 hq' with h1 | h2
            · exact hq q (List.mem_cons_of_mem _ h1)
            · exact depsOf_mem_universe deps source current q (List.mem_of_mem_filter h2)
          · have := bfsMeasure_visit deps source current rest visited
              (hq current (List.mem_cons_self _ _)) hv
            omega

/-- C9: for every dependency graph — cyclic and diamond graphs
included, no acyclicity assumed — and every cache and disk state,
`needs_rebuild` terminates: the fuel `rebuildFuel`, bounded by the
visited-set argument (each universe node is expanded at most once),
always produces a result. -/
theorem c9_needs_rebuild_terminates (disk : FsPath → Option String)
    (deps : DepGraph) (hs : HashMapL) (source : FsPath) :
    ∃ r, needsRebuild disk deps (rebuildFuel deps source) hs source = some r := by
  unfold needsRebuild
  rcases hch : checkHash disk hs source with ⟨ok, hs'⟩
  cases ok with
  | false => exact ⟨(true, hs'), rfl⟩
  | true =>
    apply Option.isSome_iff_exists.1
    apply rebuildBfs_isSome disk deps source
    · intro q hq
      rcases List.mem_cons.1 hq with h | h
      · subst h
        exact source_mem_universe deps _
      · cases h
    · unfold bfsMeasure rebuildFuel
      have hle : ((depUniverse deps source).filter
          (fun x => !decide (x ∈ ([] : List FsPath)))).length
          ≤ (depUniverse deps source).length := List.length_filter_le _ _
      simp only [List.length_cons, List.length_nil]
      have := Nat.mul_le_mul_right (maxDegree deps + 1) hle
      omega

/-! ## C10: `_check_hash` overwrites the stored digest during the check -/

/-- A dict assignment is seen by the next lookup of the same key. -/
theorem lookupHash_insert_self (hs : HashMapL) (p : FsPath) (h : String) :
    lookupHash (insertHash hs p h) p = some h := by
  simp [lookupHash, insertHash]

/-- A dict assignment leaves other keys' lookups unchanged. -/
theorem lookupHash_insert_ne (hs : HashMapL) (p : FsPath) (h : String)
    (q : FsPath) (hne : q ≠ p) :
    lookupHash (insertHash hs p h) q = lookupHash hs q := by
  unfold lookupHash insertHash
  rw [List.find?_cons_of_neg]
  simp only [beq_iff_eq]
  exact fun hh => hne hh.symm

/-- A consistent entry passes `_check_hash` without touching the dict. -/
theorem checkHash_consistent (disk : FsPath → Option String) (hs : HashMapL)
    (q : FsPath) (h : hashConsistent disk hs q) :
    checkHash disk hs q = (true, hs) := by
  rcases h with ⟨hex, heq⟩
  unfold checkHash
  cases hd : disk q with
  | none => rw [hd] at hex; cases hex
  | some v =>
    rw [hd] at heq
    rw [heq]
    simp

/-- On an everywhere-consistent cache the BFS finds no mismatch: it
returns `False` and leaves the hash dict unchanged. -/
theorem rebuildBfs_consistent (disk : FsPath → Option String) (deps : DepGraph)
    (source : FsPath) (hs : HashMapL)
    (hcons : ∀ q ∈ depUniverse deps source, hashConsistent disk hs q) :
    ∀ (fuel : Nat) (queue visited : List FsPath),
      (∀ q ∈ queue, q ∈ depUniverse deps source) →
      bfsMeasure deps source queue visited < fuel →
      rebuildBfs disk deps fuel hs queue visited = some (false, hs) := by
  intro fuel
  induction fuel with
  | zero =>
    intro queue visited _ hμ
    cases hμ
  | succ n ih =>
    intro queue visited hq hμ
    cases queue with
    | nil => rfl
    | cons current rest =>
      by_cases hv : current ∈ visited
      · rw [rebuildBfs, if_pos hv]
        refine ih rest visited (fun q hq' => hq q (List.mem_cons_of_mem _ hq')) ?_
        have := bfsMeasure_pop deps source current rest visited
        omega
      · rw [rebuildBfs, if_neg hv]
        have hch := checkHash_consistent disk hs current
          (hcons current (hq current (List.mem_cons_self _ _)))
        simp only [hch]
        refine ih _ _ ?_ ?_
        · intro q hq'
          rcases List.mem_append.1 hq' with h1 | h2
          · exact hq q (List.mem_cons_of_mem _ h1)
          · exact depsOf_mem_universe deps source current q (List.mem_of_mem_filter h2)
        · have := bfsMeasure_visit deps source current rest visited
            (hq current (List.mem_cons_self _ _)) hv
          omega

/-- C10: `needs_rebuild` heals its own cache while checking.  If `p`
exists on disk with a digest the cache does not hold, and every other
file of the universe is consistent, then the first call reports `True`
and overwrites the stored digest, and an immediately repeated call on
the unchanged disk reports `False` — although no build and no explicit
`update_file`/`record` happened in between. -/
theorem c10_check_hash_overwrites_during_check (disk : FsPath → Option String)
    (deps : DepGraph) (hs : HashMapL) (p : FsPath) (h : String)
    (hdisk : disk p = some h)
    (hchanged : lookupHash hs p ≠ some h)
    (hrest : ∀ q ∈ depUniverse deps p, q ≠ p → hashConsistent disk hs q) :
    needsRebuild disk deps (rebuildFuel deps p) hs p = some (true, insertHash hs p h)
    ∧ needsRebuild disk deps (rebuildFuel deps p) (insertHash hs p h) p
        = some (false, insertHash hs p h) := by
  constructor
  · unfold needsRebuild checkHash
    rw [hdisk]
    simp only [hchanged, if_false]
  · have hcons : ∀ q ∈ depUniverse deps p, hashConsistent disk (insertHash hs p h) q := by
      intro q hqU
      by_cases hqp : q = p
      · subst hqp
        exact ⟨by rw [hdisk]; rfl, by rw [lookupHash_insert_self, hdisk]⟩
      · rcases hrest q hqU hqp with ⟨hex, heq⟩
        exact ⟨hex, by rw [lookupHash_insert_ne hs p h q hqp]; exact heq⟩
    have hch : checkHash disk (insertHash hs p h) p = (true, insertHash hs p h) :=
      checkHash_consistent disk _ p (hcons p (source_mem_universe deps p))
    unfold needsRebuild
    rw [hch]
    apply rebuildBfs_consistent disk deps p (insertHash hs p h) hcons
    · intro q hq
      rcases List.mem_cons.1 hq with h1 | h1
      · subst h1
        exact source_mem_universe deps _
      · cases h1
    · unfold bfsMeasure rebuildFuel
      have hle : ((depUniverse deps p).filter
          (fun x => !decide (x ∈ ([] : List FsPath)))).length
          ≤ (depUniverse deps p).length := List.length_filter_le _ _
      simp only [List.length_cons, List.length_nil]
      have := Nat.mul_le_mul_right (maxDegree deps + 1) hle
      omega

/-- Witness for C10: on the cyclic graph `m.cpp ↔ u.h` with `m.cpp`
changed on disk, the first `needs_rebuild` reports `True` and rewrites
the stored digest; the repeated call reports `False`. -/
theorem c10_check_hash_overwrites_during_check_witness :
    needsRebuild c10Disk c10Deps (rebuildFuel c10Deps "m.cpp") c10Hashes "m.cpp"
        = some (true, insertHash c10Hashes "m.cpp" "digest-new")
    ∧ needsRebuild c10Disk c10Deps (rebuildFuel c10Deps "m.cpp")
        (insertHash c10Hashes "m.cpp" "digest-new") "m.cpp"
        = some (false, insertHash c10Hashes "m.cpp" "digest-new") :=
  c10_check_hash_overwrites_during_check c10Disk c10Deps c10Hashes "m.cpp" "digest-new"
    (by rfl) (by decide) (by decide)

end CppLab
